import Mathlib

/-!
Verification of the Contract Portal repository: a shallow embedding of the
backend storage gateway (list/create/delete HTTP handlers over a blob store
and a database), the client-side list filtering/sorting, the byte-count
formatting utility, and the notification state, together with theorems about
the specified properties.

Conventions of the embedding:
* Machine numbers are `Nat`/`Int`; JavaScript `Math.log`-based arithmetic is
  embedded by its value in IEEE-754 doubles: on the range the theorems use
  (byte counts up to `1024 ^ 5`), the double computation
  `Math.floor(Math.log bytes / Math.log 1024)` equals the exact base-1024
  floor logarithm everywhere except at the three integers just below
  `1024 ^ 5`, where the rounded quotient already reaches 5.0; the embedding
  carries that divergence explicitly. `toFixed` rounding is embedded as
  exact half-up decimal rounding (the values the theorems evaluate it at
  are exactly representable, so the double and exact roundings coincide).
* Upstream services (Vercel Blob, Supabase) are opaque: each call's outcome
  (success payload or thrown error message) is an input drawn from an
  environment record, and the contents of the two stores are explicit state.
* Strings on the client side are lists of characters; `toLowerCase` is
  `Char.toLower` pointwise and `localeCompare` is embedded as the sign of the
  lexicographic comparison (a total order, which is the only property of the
  collation the sort relies on).
-/

namespace ContractPortal

/-! ## Byte formatting utility (formatBytes, src/src/App.tsx and src/index.tsx)

Source: the zero case returns the literal string 0 Bytes; otherwise
i = Math.floor(Math.log bytes / Math.log 1024) and the result is
parseFloat of (bytes / 1024 ^ i).toFixed dm, a space, and sizes[i].
-/

/-- The unit table of the source: `['Bytes', 'KB', 'MB', 'GB', 'TB']`. -/
def sizesArr : List String := ["Bytes", "KB", "MB", "GB", "TB"]

/-- JavaScript array indexing: out-of-range access yields `undefined`, which
string concatenation renders as the string "undefined". -/
def jsArrIndex (l : List String) (i : Nat) : String :=
  (l.get? i).getD "undefined"

/-- Fuel-driven exact base-1024 floor logarithm (repeated division by 1024).
The fuel argument only bounds the recursion. -/
def unitIndexAux : Nat → Nat → Nat
  | 0, _ => 0
  | fuel + 1, b => if b < 1024 then 0 else unitIndexAux fuel (b / 1024) + 1

/-- Unit index selected by `formatBytes` for a nonzero byte count: the value
of `Math.floor(Math.log b / Math.log 1024)` computed in IEEE-754 doubles.
For `1 ≤ b ≤ 1024 ^ 5` (every integer there is exactly representable) the
double quotient floors to the exact base-1024 floor logarithm, except at the
three integers `1024 ^ 5 - 3`, `1024 ^ 5 - 2` and `1024 ^ 5 - 1`: their
exact quotients lie within half an ulp below 5, so the rounded double
quotient is already 5.0 and the program computes index 5 where the exact
logarithm gives 4. The embedding applies that divergence explicitly. -/
def unitIndex (b : Nat) : Nat :=
  if 1024 ^ 5 - 3 ≤ b ∧ b ≤ 1024 ^ 5 - 1 then 5 else unitIndexAux b b

/-- Strip trailing zero digits of a decimal fixed-point number `n / 10 ^ e`
(the effect of JavaScript `parseFloat` on the output of `toFixed`),
returning the reduced mantissa and exponent. -/
def stripTrailing : Nat → Nat → Nat × Nat
  | n, 0 => (n, 0)
  | n, e + 1 => if n % 10 = 0 then stripTrailing (n / 10) e else (n, e + 1)

/-- Left-pad a digit string with zeros to the given length. -/
def padZeros (s : String) (len : Nat) : String :=
  String.mk (List.replicate (len - s.length) '0') ++ s

/-- Render the fixed-point number `n / 10 ^ e` the way JavaScript prints the
number produced by `parseFloat` (no trailing zeros are present once
`stripTrailing` has been applied). -/
def renderScaled (n e : Nat) : String :=
  if e = 0 then Nat.repr n
  else Nat.repr (n / 10 ^ e) ++ "." ++ padZeros (Nat.repr (n % 10 ^ e)) e

/-- The numeric part of the `formatBytes` output:
`parseFloat((bytes / Math.pow(1024, i)).toFixed(dm))` with
`dm = decimals < 0 ? 0 : decimals`, embedded with exact half-up rounding of
the exact rational `bytes / 1024 ^ i` to `dm` decimal places. -/
def renderValue (bytes : Nat) (decimals : Int) : String :=
  let dm := if decimals < 0 then 0 else decimals.toNat
  let i := unitIndex bytes
  let n := (2 * bytes * 10 ^ dm + 1024 ^ i) / (2 * 1024 ^ i)
  let p := stripTrailing n dm
  renderScaled p.1 p.2

/-- `formatBytes` from `src/src/App.tsx` (identical in `src/index.tsx`). -/
def formatBytes (bytes : Nat) (decimals : Int) : String :=
  if bytes = 0 then "0 Bytes"
  else renderValue bytes decimals ++ " " ++ jsArrIndex sizesArr (unitIndex bytes)

/-! ## Filename sanitization (POST handler, src/unnamed/part_000)

Source: `filenameParam.split(/[/\\]/).pop() ?? 'unknown-file.zip'`. -/

/-- A character the splitting regular expression `[/\\]` matches. -/
def isSep (c : Char) : Bool := c = '/' || c = '\\'

/-- JavaScript `String.prototype.split` on the separator class `[/\\]`:
always returns at least one (possibly empty) field. -/
def splitSeps : List Char → List (List Char)
  | [] => [[]]
  | c :: cs =>
    if isSep c then [] :: splitSeps cs
    else
      match splitSeps cs with
      | [] => [[c]]
      | h :: t => (c :: h) :: t

/-- `split(/[/\\]/).pop() ?? 'unknown-file.zip'`: `.pop()` yields the last
field (`undefined`, hence the fallback, only for an empty array, which
`split` never produces). -/
def sanitizeFilename (s : String) : String :=
  match (splitSeps s.data).getLast? with
  | some last => String.mk last
  | none => "unknown-file.zip"

/-! ## Backend storage gateway (src/unnamed/part_000, src/api/contracts)

The handlers are straight-line async code over two opaque upstream services.
The blob store and the database table are explicit state; each upstream
call's outcome (its success payload, or the message of the error it throws)
is an input in an environment record, since the services are external. -/

/-- A row of the `contracts` table. -/
structure ContractRow where
  id : String
  name : String
  size : Nat
  url : String
  uploadedAt : Nat
deriving DecidableEq

/-- The two external stores: the blob store (url and stored byte count per
blob) and the database rows. -/
structure Store where
  blobs : List (String × Nat)
  rows : List ContractRow
deriving DecidableEq

/-- JSON body of a gateway response. -/
inductive RespBody where
  | errorBody (error : String) (details : Option String)
  | recordBody (r : ContractRow)
  | successBody
deriving DecidableEq

/-- An HTTP response produced by `jsonResponse`. -/
structure HttpResponse where
  status : Nat
  body : RespBody
deriving DecidableEq

/-- Shorthand for an error response. -/
def mkError (status : Nat) (error : String) (details : Option String) : HttpResponse :=
  { status := status, body := .errorBody error details }

/-- The details field of a response, when its body is an error body. -/
def respDetails : HttpResponse → Option String
  | { status := _, body := .errorBody _ d } => d
  | _ => none

/-- A create request: the filename query parameter, whether a body stream is
present, and the client-supplied Content-Length header (the embedding keeps
the header as an optional decimal value, which is how the handlers read it). -/
structure CreateRequest where
  filenameParam : Option String
  hasBody : Bool
  contentLength : Option Nat
deriving DecidableEq

deriving instance DecidableEq for Except

/-- Environment for one create request: the outcome of each upstream call.
`putOutcome` is the url the blob store assigns (or the thrown message),
`putSize` the byte count the store records for the written stream,
`headOutcome` whether the metadata read throws, `insertOutcome` the id and
timestamp the database assigns (or the insert error message), and
`delOutcome` whether the compensating blob delete throws. -/
structure CreateEnv where
  putOutcome : Except String String
  putSize : Nat
  headOutcome : Option String
  insertOutcome : Except String (String × Nat)
  delOutcome : Option String
deriving DecidableEq

/-- The size the blob store reports for a url (the most recent write wins),
which is what `head(blob.url)` returns. -/
def blobSizeAt (bs : List (String × Nat)) (url : String) : Nat :=
  match (bs.filter (fun p => p.1 == url)).getLast? with
  | some p => p.2
  | none => 0

/-- The POST handler of `src/unnamed/part_000`: sanitize the filename, `put`
the body, read the authoritative size back with `head`, insert the row; if
the insert fails, `del` the just-written blob and rethrow the insert error
(an error thrown by `del` itself preempts the rethrow and is what the catch
block sees). -/
def POST_v0 (req : CreateRequest) (env : CreateEnv) (st : Store) : HttpResponse × Store :=
  if req.filenameParam.getD "" = "" ∨ req.hasBody = false then
    (mkError 400 "Nome do arquivo e corpo da requisição são obrigatórios"
      (some "Missing filename or request body."), st)
  else
    let fp := req.filenameParam.getD ""
    let name := sanitizeFilename fp
    match env.putOutcome with
    | .error e => (mkError 500 "Falha ao fazer upload do arquivo" (some e), st)
    | .ok url =>
      let st1 : Store := ⟨st.blobs ++ [(url, env.putSize)], st.rows⟩
      match env.headOutcome with
      | some e => (mkError 500 "Falha ao fazer upload do arquivo" (some e), st1)
      | none =>
        let size := blobSizeAt st1.blobs url
        match env.insertOutcome with
        | .error dbe =>
          match env.delOutcome with
          | none =>
            (mkError 500 "Falha ao fazer upload do arquivo" (some dbe),
              ⟨st1.blobs.filter (fun p => p.1 != url), st1.rows⟩)
          | some de => (mkError 500 "Falha ao fazer upload do arquivo" (some de), st1)
        | .ok idts =>
          let row : ContractRow := ⟨idts.1, name, size, url, idts.2⟩
          ({ status := 201, body := .recordBody row }, ⟨st1.blobs, st1.rows ++ [row]⟩)

/-- The POST handler of `src/api/contracts/index.ts`: no sanitization, no
`head` read; the stored size is `parseInt(request.headers.get(..) || 0, 10)`
taken from the client Content-Length header. The compensation on insert
failure is as in `POST_v0`. -/
def POST_index (req : CreateRequest) (env : CreateEnv) (st : Store) : HttpResponse × Store :=
  if req.filenameParam.getD "" = "" ∨ req.hasBody = false then
    (mkError 400 "Nome do arquivo e corpo da requisição são obrigatórios"
      (some "Missing filename or request body."), st)
  else
    let fp := req.filenameParam.getD ""
    match env.putOutcome with
    | .error e => (mkError 500 "Falha ao fazer upload do arquivo" (some e), st)
    | .ok url =>
      let st1 : Store := ⟨st.blobs ++ [(url, env.putSize)], st.rows⟩
      let size := req.contentLength.getD 0
      match env.insertOutcome with
      | .error dbe =>
        match env.delOutcome with
        | none =>
          (mkError 500 "Falha ao fazer upload do arquivo" (some dbe),
            ⟨st1.blobs.filter (fun p => p.1 != url), st1.rows⟩)
        | some de => (mkError 500 "Falha ao fazer upload do arquivo" (some de), st1)
      | .ok idts =>
        let row : ContractRow := ⟨idts.1, fp, size, url, idts.2⟩
        ({ status := 201, body := .recordBody row }, ⟨st1.blobs, st1.rows ++ [row]⟩)

/-- JavaScript truthiness of a destructured string field: absent (or null)
and empty-string values are falsy. -/
def jsTruthy : Option String → Bool
  | none => false
  | some s => s != ""

/-- Environment for one delete request: whether the blob `del` throws, and
whether the database delete reports an error. A database delete that matches
no row reports no error (PostgREST semantics), so row existence does not
enter the outcome. -/
structure DeleteEnv where
  delOutcome : Option String
  dbDelOutcome : Option String
deriving DecidableEq

/-- Result of the DELETE handler: the response, the final stores, and
whether each deletion was attempted. -/
structure DeleteResult where
  resp : HttpResponse
  store : Store
  blobDelAttempted : Bool
  dbDelAttempted : Bool
deriving DecidableEq

/-- The DELETE handler of `src/unnamed/part_000`: parse the JSON body inside
the try block (a parse failure is caught and becomes 500), 400 when id or
url is falsy, otherwise `del` the blob then delete the database row. -/
def DELETE_v0 (body : Except String (Option String × Option String))
    (env : DeleteEnv) (st : Store) : DeleteResult :=
  match body with
  | .error e => ⟨mkError 500 "Falha ao excluir o arquivo" (some e), st, false, false⟩
  | .ok fields =>
    if jsTruthy fields.1 = false ∨ jsTruthy fields.2 = false then
      ⟨mkError 400 "ID e URL do arquivo são obrigatórios" none, st, false, false⟩
    else
      let id := fields.1.getD ""
      let url := fields.2.getD ""
      match env.delOutcome with
      | some e => ⟨mkError 500 "Falha ao excluir o arquivo" (some e), st, true, false⟩
      | none =>
        let st1 : Store := ⟨st.blobs.filter (fun p => p.1 != url), st.rows⟩
        match env.dbDelOutcome with
        | some e => ⟨mkError 500 "Falha ao excluir o arquivo" (some e), st1, true, true⟩
        | none =>
          ⟨{ status := 200, body := .successBody },
            ⟨st1.blobs, st1.rows.filter (fun r => r.id != id)⟩, true, true⟩

/-! ## Client-side derived list (filteredAndSortedFiles, src/src/App.tsx)

Names are lists of characters; `toLowerCase` is `Char.toLower` pointwise and
`localeCompare` is the sign of the lexicographic comparison. The JavaScript
`Array.prototype.sort` is stable (ES2019), embedded as insertion sort on the
relation comparator-result-nonpositive. -/

/-- The `UploadedFile` record of the client. -/
structure UFile where
  id : String
  name : List Char
  size : Nat
  uploadedAt : Int
deriving DecidableEq

/-- Pointwise `toLowerCase`. -/
def lowerStr (s : List Char) : List Char := s.map Char.toLower

/-- JavaScript `String.prototype.includes`: some position of the haystack
starts with the needle. -/
def jsIncludes (hay needle : List Char) : Bool :=
  (List.range (hay.length + 1)).any (fun i => needle.isPrefixOf (hay.drop i))

/-- The filter stage: keep the files whose lowercased name contains the
lowercased search term. -/
def filterFiles (files : List UFile) (term : List Char) : List UFile :=
  files.filter (fun f => jsIncludes (lowerStr f.name) (lowerStr term))

/-- `localeCompare` embedded as the sign of the lexicographic comparison. -/
def localeCompare (a b : List Char) : Int :=
  if a < b then -1 else if b < a then 1 else 0

/-- Comparator for the name-ascending mode: `a.name.localeCompare(b.name)`. -/
def nameAscCmp (a b : UFile) : Int := localeCompare a.name b.name

/-- Comparator for the name-descending mode: `b.name.localeCompare(a.name)`. -/
def nameDescCmp (a b : UFile) : Int := localeCompare b.name a.name

/-- Comparator for the date-ascending mode:
`a.uploadedAt.getTime() - b.uploadedAt.getTime()`. -/
def dateAscCmp (a b : UFile) : Int := a.uploadedAt - b.uploadedAt

/-- Comparator for the date-descending mode (also the default branch):
`b.uploadedAt.getTime() - a.uploadedAt.getTime()`. -/
def dateDescCmp (a b : UFile) : Int := b.uploadedAt - a.uploadedAt

/-- The comparator the switch statement selects for a sort option string. -/
def cmpFor : String → UFile → UFile → Int
  | "name-asc" => nameAscCmp
  | "name-desc" => nameDescCmp
  | "date-asc" => dateAscCmp
  | _ => dateDescCmp

/-- Stable comparator sort: an element precedes another when the comparator
is nonpositive on the pair, ties keeping original order. -/
def sortByCmp (cmp : UFile → UFile → Int) (l : List UFile) : List UFile :=
  List.insertionSort (fun a b => cmp a b ≤ 0) l

/-- The derived visible list: filter by the search term, then sort by the
selected mode. -/
def filteredAndSortedFiles (files : List UFile) (term : List Char)
    (sortOption : String) : List UFile :=
  sortByCmp (cmpFor sortOption) (filterFiles files term)

/-! ## Notifications (src/src/App.tsx)

`addNotification` builds the item with `id: Date.now()` (the clock reading
at the call, a parameter here) and appends it; the `Notification` component
schedules `onClose(id)` after a fixed 5000 ms; `removeNotification` filters
the list by id. -/

/-- The kind of a notification. -/
inductive NotifKind where
  | success
  | error
deriving DecidableEq

/-- A notification item. -/
structure Notification where
  id : Nat
  message : String
  kind : NotifKind
deriving DecidableEq

/-- The notification list state of the root application. -/
structure NotifState where
  notifications : List Notification
deriving DecidableEq

/-- The initial notification state (`useState([])`). -/
def initNotifState : NotifState := ⟨[]⟩

/-- `addNotification`: the id is the `Date.now()` reading at the call. -/
def addNotification (now : Nat) (message : String) (kind : NotifKind)
    (s : NotifState) : NotifState :=
  ⟨s.notifications ++ [⟨now, message, kind⟩]⟩

/-- `removeNotification` drops every live notification carrying the id. -/
def removeNotification (id : Nat) (s : NotifState) : NotifState :=
  ⟨s.notifications.filter (fun n => n.id != id)⟩

/-- The fixed self-dismiss delay the `Notification` component passes to
`setTimeout`. -/
def notificationTimeoutMs : Nat := 5000

/-- A sequence of `addNotification` calls, each with its clock reading. -/
def runAdds (evs : List (Nat × String × NotifKind)) (s : NotifState) : NotifState :=
  evs.foldl (fun s e => addNotification e.1 e.2.1 e.2.2 s) s

/-! ## Theorems: gateway claims -/

/-- The blob store reports the size of the most recent write of a url. -/
theorem blobSizeAt_append (bs : List (String × Nat)) (url : String) (n : Nat) :
    blobSizeAt (bs ++ [(url, n)]) url = n := by
  simp [blobSizeAt, List.filter_append, List.getLast?_concat]

/-- Claim C1: when the blob write succeeds, the database insert fails and the
compensating delete (the case its own failure is the subject of the next
claim) goes through, the gateway removes the just-written blob, returns 500,
and leaves the database rows untouched, so no row for the file exists. -/
theorem c1_insert_failure_compensating_delete
    (req : CreateRequest) (env : CreateEnv) (st : Store) (fp url dbe : String)
    (hf : req.filenameParam = some fp) (hfp : fp ≠ "") (hb : req.hasBody = true)
    (hput : env.putOutcome = .ok url) (hhead : env.headOutcome = none)
    (hins : env.insertOutcome = .error dbe) (hdel : env.delOutcome = none) :
    (POST_v0 req env st).1.status = 500 ∧
    (∀ p ∈ (POST_v0 req env st).2.blobs, p.1 ≠ url) ∧
    (POST_v0 req env st).2.rows = st.rows := by
  simp only [POST_v0, hf, hb, hput, hhead, hins, hdel, Option.getD_some]
  rw [if_neg (by simp [hfp])]
  refine ⟨rfl, ?_, rfl⟩
  intro p hp
  have h := (List.mem_filter.mp hp).2
  simpa using h

/-- Witness for C1 at a concrete request, environment and store. -/
theorem c1_witness :
    (("a.zip" : String) ≠ "") ∧
    ((POST_v0 ⟨some "a.zip", true, none⟩
        ⟨Except.ok "u", 10, none, Except.error "db down", none⟩ ⟨[], []⟩).1.status = 500 ∧
      (∀ p ∈ (POST_v0 ⟨some "a.zip", true, none⟩
        ⟨Except.ok "u", 10, none, Except.error "db down", none⟩ ⟨[], []⟩).2.blobs,
          p.1 ≠ "u") ∧
      (POST_v0 ⟨some "a.zip", true, none⟩
        ⟨Except.ok "u", 10, none, Except.error "db down", none⟩ ⟨[], []⟩).2.rows = []) :=
  ⟨by decide,
    c1_insert_failure_compensating_delete _ _ _ "a.zip" "u" "db down"
      rfl (by decide) rfl rfl rfl rfl rfl⟩

/-- Counterexample to claim C2 as stated: when the compensating delete also
fails, the details field carries the delete error message, not the insert
error message, because the thrown delete error preempts the rethrow of the
insert error. -/
theorem c2_counterexample :
    respDetails (POST_v0 ⟨some "a.zip", true, none⟩
      ⟨Except.ok "u", 10, none, Except.error "insert failed", some "delete failed"⟩
      ⟨[], []⟩).1 = some "delete failed" ∧
    (some "delete failed" : Option String) ≠ some "insert failed" := by
  constructor
  · rfl
  · decide

/-- Claim C2 amended: with blob write succeeded, insert failed and the
compensating delete also failing, the gateway still returns 500 and leaves
the orphan blob in place, but the details field it surfaces is the blob
delete error message (the insert error is preempted by the delete throw). -/
theorem c2_amended_delete_failure_surfaces_delete_error
    (req : CreateRequest) (env : CreateEnv) (st : Store) (fp url dbe de : String)
    (hf : req.filenameParam = some fp) (hfp : fp ≠ "") (hb : req.hasBody = true)
    (hput : env.putOutcome = .ok url) (hhead : env.headOutcome = none)
    (hins : env.insertOutcome = .error dbe) (hdel : env.delOutcome = some de) :
    (POST_v0 req env st).1.status = 500 ∧
    respDetails (POST_v0 req env st).1 = some de ∧
    url ∈ (POST_v0 req env st).2.blobs.map Prod.fst ∧
    (POST_v0 req env st).2.rows = st.rows := by
  simp only [POST_v0, hf, hb, hput, hhead, hins, hdel, Option.getD_some]
  rw [if_neg (by simp [hfp])]
  refine ⟨rfl, rfl, ?_, rfl⟩
  simp

/-- Witness for the amended C2 at a concrete request, environment, store. -/
theorem c2_witness :
    (("a.zip" : String) ≠ "") ∧
    ((POST_v0 ⟨some "a.zip", true, none⟩
        ⟨Except.ok "u", 10, none, Except.error "insert failed", some "delete failed"⟩
        ⟨[], []⟩).1.status = 500 ∧
      respDetails (POST_v0 ⟨some "a.zip", true, none⟩
        ⟨Except.ok "u", 10, none, Except.error "insert failed", some "delete failed"⟩
        ⟨[], []⟩).1 = some "delete failed" ∧
      "u" ∈ (POST_v0 ⟨some "a.zip", true, none⟩
        ⟨Except.ok "u", 10, none, Except.error "insert failed", some "delete failed"⟩
        ⟨[], []⟩).2.blobs.map Prod.fst ∧
      (POST_v0 ⟨some "a.zip", true, none⟩
        ⟨Except.ok "u", 10, none, Except.error "insert failed", some "delete failed"⟩
        ⟨[], []⟩).2.rows = []) :=
  ⟨by decide,
    c2_amended_delete_failure_surfaces_delete_error _ _ _ "a.zip" "u"
      "insert failed" "delete failed" rfl (by decide) rfl rfl rfl rfl rfl⟩

/-- Counterexample to claim C3 as stated: the `src/api/contracts/index.ts`
handler, cited by the claim, stores the client Content-Length value. With
the blob store recording 10 bytes, a request declaring Content-Length 7
stores size 7 while the identical request declaring 10 stores size 10, so
the stored size both differs from the store-reported size and depends on
the client header. -/
theorem c3_counterexample :
    ((POST_index ⟨some "a.zip", true, some 7⟩
        ⟨Except.ok "u", 10, none, Except.ok ("1", 0), none⟩
        ⟨[], []⟩).2.rows.map ContractRow.size) = [7] ∧
    blobSizeAt ((POST_index ⟨some "a.zip", true, some 7⟩
        ⟨Except.ok "u", 10, none, Except.ok ("1", 0), none⟩
        ⟨[], []⟩).2.blobs) "u" = 10 ∧
    ((POST_index ⟨some "a.zip", true, some 10⟩
        ⟨Except.ok "u", 10, none, Except.ok ("1", 0), none⟩
        ⟨[], []⟩).2.rows.map ContractRow.size) = [10] ∧
    (7 : Nat) ≠ 10 := by
  refine ⟨rfl, rfl, rfl, by decide⟩

/-- Claim C3 amended and restricted to the `src/unnamed/part_000` handler,
which reads the size back from the blob store with head: every successful
create stores exactly the store-reported size, and the response and final
state are independent of the client Content-Length header. -/
theorem c3_amended_size_from_blob_store
    (req : CreateRequest) (env : CreateEnv) (st : Store) (fp url nid : String) (ts : Nat)
    (hf : req.filenameParam = some fp) (hfp : fp ≠ "") (hb : req.hasBody = true)
    (hput : env.putOutcome = .ok url) (hhead : env.headOutcome = none)
    (hins : env.insertOutcome = .ok (nid, ts)) :
    (∃ row, (POST_v0 req env st).2.rows = st.rows ++ [row] ∧
      row.size = blobSizeAt (POST_v0 req env st).2.blobs url ∧
      (POST_v0 req env st).1 = { status := 201, body := .recordBody row }) ∧
    (∀ cl₁ cl₂, POST_v0 ⟨req.filenameParam, req.hasBody, cl₁⟩ env st =
      POST_v0 ⟨req.filenameParam, req.hasBody, cl₂⟩ env st) := by
  constructor
  · refine ⟨⟨nid, sanitizeFilename fp,
      blobSizeAt (st.blobs ++ [(url, env.putSize)]) url, url, ts⟩, ?_, ?_, ?_⟩
    · simp only [POST_v0, hf, hb, hput, hhead, hins, Option.getD_some]
      rw [if_neg (by simp [hfp])]
    · simp only [POST_v0, hf, hb, hput, hhead, hins, Option.getD_some]
      rw [if_neg (by simp [hfp])]
    · simp only [POST_v0, hf, hb, hput, hhead, hins, Option.getD_some]
      rw [if_neg (by simp [hfp])]
  · intro cl₁ cl₂
    rfl

/-- Witness for the amended C3 at a concrete request, environment, store:
the stored size is the 10 bytes the blob store reports, not the 7 bytes the
client header declares. -/
theorem c3_witness :
    (("a.zip" : String) ≠ "") ∧
    ((∃ row, (POST_v0 ⟨some "a.zip", true, some 7⟩
        ⟨Except.ok "u", 10, none, Except.ok ("1", 77), none⟩ ⟨[], []⟩).2.rows =
          [] ++ [row] ∧
      row.size = blobSizeAt (POST_v0 ⟨some "a.zip", true, some 7⟩
        ⟨Except.ok "u", 10, none, Except.ok ("1", 77), none⟩ ⟨[], []⟩).2.blobs "u" ∧
      (POST_v0 ⟨some "a.zip", true, some 7⟩
        ⟨Except.ok "u", 10, none, Except.ok ("1", 77), none⟩ ⟨[], []⟩).1 =
        { status := 201, body := .recordBody row }) ∧
    (∀ cl₁ cl₂,
      POST_v0 ⟨some "a.zip", true, cl₁⟩
        ⟨Except.ok "u", 10, none, Except.ok ("1", 77), none⟩ ⟨[], []⟩ =
      POST_v0 ⟨some "a.zip", true, cl₂⟩
        ⟨Except.ok "u", 10, none, Except.ok ("1", 77), none⟩ ⟨[], []⟩)) :=
  ⟨by decide,
    c3_amended_size_from_blob_store _ _ _ "a.zip" "u" "1" 77
      rfl (by decide) rfl rfl rfl rfl⟩

/-- Claim C5, evaluating the code at the failing input: a filename parameter
ending in a separator sanitizes to the empty string, and the fallback name
is not applied (split().pop() returns an empty string, never undefined, so
the nullish coalescing never fires). -/
theorem c5_sanitize_empty_no_fallback :
    sanitizeFilename "docs/" = "" ∧ sanitizeFilename "docs/" ≠ "unknown-file.zip" := by
  decide

/-- Counterexample to claim C6 as stated: a delete request whose body cannot
be parsed as JSON (so that neither field is present) is answered with 500,
not 400, because the parse failure is thrown inside the try block and lands
in the catch; no deletion is attempted. -/
theorem c6_counterexample :
    (DELETE_v0 (.error "Unexpected end of JSON input") ⟨none, none⟩ ⟨[], []⟩).resp.status
      = 500 ∧
    ¬ ((DELETE_v0 (.error "Unexpected end of JSON input") ⟨none, none⟩ ⟨[], []⟩).resp.status
      = 400) := by
  decide

/-- Claim C6 amended: a parsable body in which id or url is absent or empty
is answered with 400 with no deletion attempted and the stores untouched;
a missing or unparsable body is instead answered with 500, also with no
deletion attempted and the stores untouched. -/
theorem c6_amended_missing_fields
    (env : DeleteEnv) (st : Store) :
    (∀ idO urlO : Option String, jsTruthy idO = false ∨ jsTruthy urlO = false →
      DELETE_v0 (.ok (idO, urlO)) env st =
        ⟨mkError 400 "ID e URL do arquivo são obrigatórios" none, st, false, false⟩) ∧
    (∀ e : String,
      DELETE_v0 (.error e) env st =
        ⟨mkError 500 "Falha ao excluir o arquivo" (some e), st, false, false⟩) := by
  constructor
  · intro idO urlO h
    simp only [DELETE_v0]
    rw [if_pos h]
  · intro e
    rfl

/-- Witness for the amended C6 at a concrete body, environment and store. -/
theorem c6_witness :
    (jsTruthy none = false ∨ jsTruthy (some "https://blob/u") = false) ∧
    DELETE_v0 (.ok (none, some "https://blob/u")) ⟨none, none⟩ ⟨[], []⟩ =
      ⟨mkError 400 "ID e URL do arquivo são obrigatórios" none, ⟨[], []⟩, false, false⟩ :=
  ⟨Or.inl (by decide),
    (c6_amended_missing_fields ⟨none, none⟩ ⟨[], []⟩).1 none (some "https://blob/u")
      (Or.inl (by decide))⟩

/-- Claim C10: a delete with a well-formed body, a successful blob delete
and an error-free database delete is answered 200 with a success body for
every database state, in particular when no row carries the id; the response
never depends on whether the row existed, and the rows are filtered by id. -/
theorem c10_delete_nonexistent_indistinguishable
    (env : DeleteEnv) (st : Store) (id url : String)
    (hid : id ≠ "") (hurl : url ≠ "")
    (hdel : env.delOutcome = none) (hdb : env.dbDelOutcome = none) :
    (DELETE_v0 (.ok (some id, some url)) env st).resp =
      { status := 200, body := .successBody } ∧
    (DELETE_v0 (.ok (some id, some url)) env st).store.rows =
      st.rows.filter (fun r => r.id != id) ∧
    (∀ st₂ : Store, (DELETE_v0 (.ok (some id, some url)) env st₂).resp =
      (DELETE_v0 (.ok (some id, some url)) env st).resp) := by
  have hmain : ∀ s : Store, DELETE_v0 (.ok (some id, some url)) env s =
      ⟨{ status := 200, body := .successBody },
        ⟨s.blobs.filter (fun p => p.1 != url), s.rows.filter (fun r => r.id != id)⟩,
        true, true⟩ := by
    intro s
    simp only [DELETE_v0, hdel, hdb]
    rw [if_neg (by simp [jsTruthy, hid, hurl])]
    rfl
  refine ⟨?_, ?_, ?_⟩
  · rw [hmain st]
  · rw [hmain st]
  · intro st₂
    rw [hmain st, hmain st₂]

/-- Witness for C10 at a concrete request and environment, with a database
holding no row with the requested id. -/
theorem c10_witness :
    (("7" : String) ≠ "") ∧ (("https://blob/u" : String) ≠ "") ∧
    ((DELETE_v0 (.ok (some "7", some "https://blob/u")) ⟨none, none⟩ ⟨[], []⟩).resp =
      { status := 200, body := .successBody } ∧
    (DELETE_v0 (.ok (some "7", some "https://blob/u")) ⟨none, none⟩ ⟨[], []⟩).store.rows =
      List.filter (fun r => r.id != "7") [] ∧
    (∀ st₂ : Store,
      (DELETE_v0 (.ok (some "7", some "https://blob/u")) ⟨none, none⟩ st₂).resp =
      (DELETE_v0 (.ok (some "7", some "https://blob/u")) ⟨none, none⟩ ⟨[], []⟩).resp)) :=
  ⟨by decide, by decide,
    c10_delete_nonexistent_indistinguishable ⟨none, none⟩ ⟨[], []⟩ "7" "https://blob/u"
      (by decide) (by decide) rfl rfl⟩

/-! ## Theorems: formatBytes (claim C4) -/

/-- The fuel-driven floor logarithm brackets its argument between
consecutive powers of 1024 whenever the fuel dominates the argument. -/
theorem unitIndexAux_bounds : ∀ fuel b : Nat, 1 ≤ b → b ≤ fuel →
    1024 ^ unitIndexAux fuel b ≤ b ∧ b < 1024 ^ (unitIndexAux fuel b + 1) := by
  intro fuel
  induction fuel with
  | zero => intro b hb hf; omega
  | succ f ih =>
    intro b hb hf
    by_cases hsmall : b < 1024
    · simp only [unitIndexAux, if_pos hsmall]
      constructor
      · simpa using hb
      · simpa using hsmall
    · simp only [unitIndexAux, if_neg hsmall]
      have hdiv1 : 1 ≤ b / 1024 := (Nat.one_le_div_iff (by omega)).mpr (by omega)
      have hdivlt : b / 1024 < b := Nat.div_lt_self (by omega) (by omega)
      have hdivf : b / 1024 ≤ f := by omega
      obtain ⟨hlo, hhi⟩ := ih (b / 1024) hdiv1 hdivf
      set u := unitIndexAux f (b / 1024) with hu
      constructor
      · have h4 : 1024 ^ u * 1024 ≤ (b / 1024) * 1024 := Nat.mul_le_mul_right _ hlo
        have h5 : (b / 1024) * 1024 ≤ b := Nat.div_mul_le_self _ _
        have h6 : (1024 : Nat) ^ (u + 1) = 1024 ^ u * 1024 := by ring
        omega
      · have h1 := Nat.div_add_mod b 1024
        have h2 : b % 1024 < 1024 := Nat.mod_lt _ (by omega)
        have h3 : b / 1024 + 1 ≤ 1024 ^ (u + 1) := hhi
        have h4 : 1024 * (b / 1024 + 1) ≤ 1024 * 1024 ^ (u + 1) :=
          Nat.mul_le_mul_left _ h3
        have h5 : (1024 : Nat) ^ (u + 1 + 1) = 1024 * 1024 ^ (u + 1) := by ring
        omega

/-- Claim C4 amended: formatBytes of zero is the literal 0 Bytes, and for
1 ≤ b < 1024 ^ 5 - 3 the selected unit index satisfies
1024 ^ i ≤ b < 1024 ^ (i + 1) (equivalently 1 ≤ b / 1024 ^ i < 1024) and the
output is the rounded value, a space, and the i-th entry of the unit table.
From three integers below 1024 ^ 5 onward there is no unit from the table
and no fallback to TB: the double computation of the index already reaches
5 at 1024 ^ 5 - 3, and sizes[5] renders as undefined (the counterexample
evaluates both an anomalous in-range input and 1024 ^ 5 itself). -/
theorem c4_amended_formatBytes_unit_selection (b : Nat) (p : Int)
    (hb : 1 ≤ b) (hr : b < 1024 ^ 5 - 3) :
    formatBytes 0 p = "0 Bytes" ∧
    1024 ^ unitIndex b ≤ b ∧ b < 1024 ^ (unitIndex b + 1) ∧
    ∃ h5 : unitIndex b < sizesArr.length,
      formatBytes b p = renderValue b p ++ " " ++ sizesArr.get ⟨unitIndex b, h5⟩ := by
  have hnotc : ¬ (1024 ^ 5 - 3 ≤ b ∧ b ≤ 1024 ^ 5 - 1) := fun h => (not_le.mpr hr) h.1
  have hui : unitIndex b = unitIndexAux b b := by rw [unitIndex, if_neg hnotc]
  have hr5 : b < 1024 ^ 5 := lt_of_lt_of_le hr (Nat.sub_le _ _)
  obtain ⟨hlo, hhi⟩ := unitIndexAux_bounds b b hb (le_refl b)
  have hlo' : 1024 ^ unitIndex b ≤ b := by rw [hui]; exact hlo
  have hhi' : b < 1024 ^ (unitIndex b + 1) := by rw [hui]; exact hhi
  have hlt5 : unitIndex b < 5 := by
    have hpow : 1024 ^ unitIndex b < 1024 ^ 5 := lt_of_le_of_lt hlo' hr5
    exact (Nat.pow_lt_pow_iff_right (by omega)).mp hpow
  have hlen : unitIndex b < sizesArr.length := by
    simpa [sizesArr] using hlt5
  refine ⟨rfl, hlo', hhi', hlen, ?_⟩
  have hb0 : b ≠ 0 := by omega
  simp only [formatBytes, if_neg hb0, jsArrIndex, List.get?_eq_get hlen, Option.getD_some]

/-- Witness for the amended C4 at 1536 bytes, precision 2 (rendering 1.5 KB). -/
theorem c4_witness :
    1 ≤ 1536 ∧ 1536 < 1024 ^ 5 - 3 ∧
    (formatBytes 0 2 = "0 Bytes" ∧
     1024 ^ unitIndex 1536 ≤ 1536 ∧ 1536 < 1024 ^ (unitIndex 1536 + 1) ∧
     ∃ h5 : unitIndex 1536 < sizesArr.length,
       formatBytes 1536 2 = renderValue 1536 2 ++ " " ++ sizesArr.get ⟨unitIndex 1536, h5⟩) :=
  ⟨by decide, by decide, c4_amended_formatBytes_unit_selection 1536 2 (by decide) (by decide)⟩

/-- Counterexample to claim C4 as stated: at 1024 ^ 5 - 1 (a byte count of
at least 1, still below 1024 ^ 5) the double-computed unit index is already
5, JavaScript reads sizes[5] as undefined, and the output is 1 undefined
rather than a TB value satisfying the stated bound; at 1024 ^ 5 and beyond
the output is likewise 1 undefined instead of a fall back to the largest
listed unit. -/
theorem c4_counterexample :
    formatBytes (1024 ^ 5 - 1) 2 = "1 undefined" ∧
    formatBytes (1024 ^ 5) 2 = "1 undefined" ∧
    "undefined" ∉ sizesArr := by
  decide

/-! ## Theorems: client-side filtering (claim C7) -/

/-- The embedded `String.prototype.includes` decides substring containment:
it returns true exactly when the needle occurs contiguously in the haystack. -/
theorem jsIncludes_iff (hay needle : List Char) :
    jsIncludes hay needle = true ↔ needle <:+: hay := by
  rw [jsIncludes, List.any_eq_true]
  constructor
  · rintro ⟨i, _, hp⟩
    have hpre : needle <+: hay.drop i := Iff.mp List.isPrefixOf_iff_prefix hp
    exact List.infix_iff_prefix_suffix.mpr ⟨hay.drop i, hpre, List.drop_suffix i hay⟩
  · intro hinf
    obtain ⟨t, hpre, hsuf⟩ := List.infix_iff_prefix_suffix.mp hinf
    have hteq : t = hay.drop (hay.length - t.length) := Iff.mp List.suffix_iff_eq_drop hsuf
    refine ⟨hay.length - t.length, ?_, ?_⟩
    · rw [List.mem_range]
      omega
    · exact Iff.mpr List.isPrefixOf_iff_prefix (hteq ▸ hpre)

/-- Claim C7: a file is visible after filtering exactly when its lowercased
name contains the lowercased search term as a substring, and the empty
search term keeps every file. -/
theorem c7_filter_case_insensitive_substring
    (files : List UFile) (term : List Char) (f : UFile) :
    (f ∈ filterFiles files term ↔
      f ∈ files ∧ lowerStr term <:+: lowerStr f.name) ∧
    filterFiles files [] = files := by
  constructor
  · rw [filterFiles, List.mem_filter, jsIncludes_iff]
  · rw [filterFiles]
    refine List.filter_eq_self.mpr (fun a _ => ?_)
    refine List.any_eq_true.mpr ⟨0, ?_, ?_⟩
    · simp
    · show (lowerStr []).isPrefixOf (List.drop 0 (lowerStr a.name)) = true
      simp [lowerStr, List.isPrefixOf]

/-! ## Theorems: client-side sorting (claim C8) -/

/-- The sign comparator is nonpositive exactly on ordered pairs. -/
theorem localeCompare_nonpos (a b : List Char) :
    localeCompare a b ≤ 0 ↔ a ≤ b := by
  unfold localeCompare
  split_ifs with h1 h2
  · exact iff_of_true (by norm_num) h1.le
  · exact iff_of_false (by norm_num) (not_le.mpr h2)
  · exact iff_of_true le_rfl (not_lt.mp h2)

/-- The sort relation of the name-ascending comparator. -/
def rNameAsc : UFile → UFile → Prop := fun a b => nameAscCmp a b ≤ 0

/-- The sort relation of the date-ascending comparator. -/
def rDateAsc : UFile → UFile → Prop := fun a b => dateAscCmp a b ≤ 0

/-- The sort relation of the date-descending comparator. -/
def rDateDesc : UFile → UFile → Prop := fun a b => dateDescCmp a b ≤ 0

instance : DecidableRel rNameAsc := fun _ _ => Int.decLe _ _

instance : DecidableRel rDateAsc := fun _ _ => Int.decLe _ _

instance : DecidableRel rDateDesc := fun _ _ => Int.decLe _ _

instance : IsTotal UFile rNameAsc :=
  ⟨fun a b => by
    rcases le_total a.name b.name with h | h
    · exact Or.inl ((localeCompare_nonpos _ _).mpr h)
    · exact Or.inr ((localeCompare_nonpos _ _).mpr h)⟩

instance : IsTrans UFile rNameAsc :=
  ⟨fun _ _ _ hab hbc => (localeCompare_nonpos _ _).mpr
    (le_trans ((localeCompare_nonpos _ _).mp hab) ((localeCompare_nonpos _ _).mp hbc))⟩

instance : IsTotal UFile rDateAsc :=
  ⟨fun a b => by
    rcases le_total a.uploadedAt b.uploadedAt with h | h
    · exact Or.inl (sub_nonpos.mpr h)
    · exact Or.inr (sub_nonpos.mpr h)⟩

instance : IsTrans UFile rDateAsc :=
  ⟨fun _ _ _ hab hbc => sub_nonpos.mpr
    (le_trans (sub_nonpos.mp hab) (sub_nonpos.mp hbc))⟩

instance : IsTotal UFile rDateDesc :=
  ⟨fun a b => by
    rcases le_total b.uploadedAt a.uploadedAt with h | h
    · exact Or.inl (sub_nonpos.mpr h)
    · exact Or.inr (sub_nonpos.mpr h)⟩

instance : IsTrans UFile rDateDesc :=
  ⟨fun _ _ _ hab hbc => sub_nonpos.mpr
    (le_trans (sub_nonpos.mp hbc) (sub_nonpos.mp hab))⟩

/-- Claim C8: the name-ascending sort is idempotent, and on a collection
with pairwise-distinct upload timestamps the date-descending sort is the
exact reverse of the date-ascending sort. -/
theorem c8_sort_idempotent_and_reverse (l : List UFile) :
    sortByCmp (cmpFor "name-asc") (sortByCmp (cmpFor "name-asc") l) =
      sortByCmp (cmpFor "name-asc") l ∧
    (List.Pairwise (fun a b : UFile => a.uploadedAt ≠ b.uploadedAt) l →
      sortByCmp (cmpFor "date-desc") l = (sortByCmp (cmpFor "date-asc") l).reverse) := by
  constructor
  · show List.insertionSort rNameAsc (List.insertionSort rNameAsc l) =
      List.insertionSort rNameAsc l
    exact List.Sorted.insertionSort_eq (List.sorted_insertionSort rNameAsc l)
  · intro hd
    show List.insertionSort rDateDesc l = (List.insertionSort rDateAsc l).reverse
    set A := List.insertionSort rDateAsc l with hA
    set D := List.insertionSort rDateDesc l with hD
    have permA : A.Perm l := List.perm_insertionSort _ l
    have permD : D.Perm l := List.perm_insertionSort _ l
    have hdA : List.Pairwise (fun a b : UFile => a.uploadedAt ≠ b.uploadedAt) A :=
      (permA.pairwise_iff (fun h => Ne.symm h)).mpr hd
    have hdD : List.Pairwise (fun a b : UFile => a.uploadedAt ≠ b.uploadedAt) D :=
      (permD.pairwise_iff (fun h => Ne.symm h)).mpr hd
    have hsortA : List.Pairwise (fun a b : UFile => a.uploadedAt ≤ b.uploadedAt) A :=
      (List.sorted_insertionSort rDateAsc l).imp (fun h => sub_nonpos.mp h)
    have hsortD : List.Pairwise (fun a b : UFile => b.uploadedAt ≤ a.uploadedAt) D :=
      (List.sorted_insertionSort rDateDesc l).imp (fun h => sub_nonpos.mp h)
    have hstrictA : List.Pairwise (fun a b : UFile => a.uploadedAt < b.uploadedAt) A :=
      (hsortA.and hdA).imp (fun h => lt_of_le_of_ne h.1 h.2)
    have hstrictD : List.Pairwise (fun a b : UFile => b.uploadedAt < a.uploadedAt) D :=
      (hsortD.and hdD).imp (fun h => lt_of_le_of_ne h.1 (Ne.symm h.2))
    have hrevA : List.Pairwise (fun a b : UFile => b.uploadedAt < a.uploadedAt) A.reverse :=
      List.pairwise_reverse.mpr hstrictA
    have hperm : D.Perm A.reverse := permD.trans (permA.symm.trans (A.reverse_perm).symm)
    haveI : IsAntisymm UFile (fun a b : UFile => b.uploadedAt < a.uploadedAt) :=
      ⟨fun a b h1 h2 => absurd (lt_trans h1 h2) (lt_irrefl _)⟩
    exact List.eq_of_perm_of_sorted hperm hstrictD hrevA

/-- Witness for C8 on a concrete two-file collection with distinct
timestamps. -/
theorem c8_witness :
    List.Pairwise (fun a b : UFile => a.uploadedAt ≠ b.uploadedAt)
      [(⟨"1", "b".data, 1, 10⟩ : UFile), (⟨"2", "a".data, 2, 5⟩ : UFile)] ∧
    sortByCmp (cmpFor "name-asc") (sortByCmp (cmpFor "name-asc")
      [(⟨"1", "b".data, 1, 10⟩ : UFile), (⟨"2", "a".data, 2, 5⟩ : UFile)]) =
      sortByCmp (cmpFor "name-asc")
        [(⟨"1", "b".data, 1, 10⟩ : UFile), (⟨"2", "a".data, 2, 5⟩ : UFile)] ∧
    sortByCmp (cmpFor "date-desc")
      [(⟨"1", "b".data, 1, 10⟩ : UFile), (⟨"2", "a".data, 2, 5⟩ : UFile)] =
      (sortByCmp (cmpFor "date-asc")
        [(⟨"1", "b".data, 1, 10⟩ : UFile), (⟨"2", "a".data, 2, 5⟩ : UFile)]).reverse :=
  ⟨by decide,
    (c8_sort_idempotent_and_reverse
      [(⟨"1", "b".data, 1, 10⟩ : UFile), (⟨"2", "a".data, 2, 5⟩ : UFile)]).1,
    (c8_sort_idempotent_and_reverse
      [(⟨"1", "b".data, 1, 10⟩ : UFile), (⟨"2", "a".data, 2, 5⟩ : UFile)]).2 (by decide)⟩

/-! ## Theorems: notifications (claim C9) -/

/-- The ids of the notifications after a sequence of additions are the
initial ids followed by the clock readings of the additions, in order. -/
theorem runAdds_ids (evs : List (Nat × String × NotifKind)) : ∀ s : NotifState,
    (runAdds evs s).notifications.map (fun n => n.id) =
      s.notifications.map (fun n => n.id) ++ evs.map (fun e => e.1) := by
  induction evs with
  | nil => intro s; simp [runAdds]
  | cons e t ih =>
    intro s
    have hstep : runAdds (e :: t) s = runAdds t (addNotification e.1 e.2.1 e.2.2 s) := rfl
    rw [hstep, ih]
    simp [addNotification]

/-- Counterexample to claim C9 as stated: two notifications emitted at the
same clock millisecond (both Date.now() readings equal 5) are live together
and carry the same id, so ids are not unique among live notifications. -/
theorem c9_counterexample :
    ¬ (((addNotification 5 "b" NotifKind.error
          (addNotification 5 "a" NotifKind.success initNotifState)).notifications.map
        (fun n => n.id)).Nodup) := by
  decide

/-- Claim C9 amended: notification ids are the Date.now() readings at
creation, so they are pairwise distinct among live notifications whenever no
two notifications are created at the same clock millisecond; the
self-dismiss delay the component schedules is the fixed 5000 ms, and a
dismissal (by timer or by explicit user action) removes exactly the
notifications carrying the dismissed id. -/
theorem c9_amended_ids_unique_when_clock_distinct
    (evs : List (Nat × String × NotifKind))
    (h : (evs.map (fun e => e.1)).Nodup) :
    ((runAdds evs initNotifState).notifications.map (fun n => n.id)).Nodup ∧
    notificationTimeoutMs = 5000 ∧
    (∀ (i : Nat) (s : NotifState),
      (removeNotification i s).notifications =
        s.notifications.filter (fun n => n.id != i)) := by
  refine ⟨?_, rfl, fun i s => rfl⟩
  rw [runAdds_ids]
  simpa [initNotifState] using h

/-- Witness for the amended C9 on two additions at distinct clock readings. -/
theorem c9_witness :
    ((([(1, "enviado", NotifKind.success), (2, "erro", NotifKind.error)] :
        List (Nat × String × NotifKind)).map (fun e => e.1)).Nodup) ∧
    (((runAdds [(1, "enviado", NotifKind.success), (2, "erro", NotifKind.error)]
        initNotifState).notifications.map (fun n => n.id)).Nodup ∧
      notificationTimeoutMs = 5000 ∧
      (∀ (i : Nat) (s : NotifState),
        (removeNotification i s).notifications =
          s.notifications.filter (fun n => n.id != i))) :=
  ⟨by decide,
    c9_amended_ids_unique_when_clock_distinct
      [(1, "enviado", NotifKind.success), (2, "erro", NotifKind.error)] (by decide)⟩

end ContractPortal
